import Mathlib

set_option maxHeartbeats 1000000

namespace DokkanKB

/- Shallow embedding of the multi-source data-aggregation engine of the
   Dokkan-K-B repository: WikiUpdater (src/unnamed/part_003) and
   DataManager (src/unnamed/part_000).  JavaScript values are modelled by
   the inductive JVal below; JS numbers are modelled as rationals (every
   arithmetic step the claims touch is exact in binary floating point:
   sums of small integers, division by a sample count, and the 0.75
   threshold, which is dyadic).  Dates are modelled by their epoch-ms
   value (constructor vdate); date strings that the code would parse are
   represented directly as vdate.  Exceptions are modelled with Except. -/

/-- JavaScript-like runtime values, as far as the aggregation engine
    inspects them. -/
inductive JVal where
  | vnull : JVal
  | vbool : Bool → JVal
  | vnum : Rat → JVal
  | vstr : String → JVal
  | vdate : Int → JVal
  | vlist : List JVal → JVal
  | vobj : List (String × JVal) → JVal
deriving Repr

/-- JS truthiness (`!rawData`): null/undefined, false, 0, and the empty
    string are falsy; objects, arrays and dates are always truthy. -/
def isFalsy : JVal → Bool
  | .vnull => true
  | .vbool b => !b
  | .vnum q => decide (q = 0)
  | .vstr s => s.isEmpty
  | .vdate _ => false
  | .vlist _ => false
  | .vobj _ => false

/-- The orchestrator's empty-result test
    `!rawData || (Array.isArray(rawData) && rawData.length === 0)`. -/
def isEmptyResult (v : JVal) : Bool :=
  isFalsy v ||
    (match v with
     | .vlist l => l.isEmpty
     | _ => false)

/-- Property read `item[field]`: `none` models JS `undefined`.  JS object
    keys are unique, so first-match lookup is exact.  Property reads on
    non-objects (primitives) yield undefined for every field the engine
    asks about. -/
def getField (item : JVal) (field : String) : Option JVal :=
  match item with
  | .vobj fs => fs.lookup field
  | _ => none

/-- Assoc-list update mirroring JS property write on an object: an
    existing key keeps its position, a new key is appended (JS insertion
    order). -/
def setPair (k : String) (v : JVal) : List (String × JVal) → List (String × JVal)
  | [] => [(k, v)]
  | (k1, v1) :: rest => if k1 = k then (k, v) :: rest else (k1, v1) :: setPair k v rest

/-- Property write `item[field] = v`.  On a non-object primitive the
    write is a silent no-op (the modules run in sloppy mode). -/
def setField (item : JVal) (field : String) (v : JVal) : JVal :=
  match item with
  | .vobj fs => .vobj (setPair field v fs)
  | other => other

/-- WikiUpdater.getDefaultValueForField: the per-field default table; the
    date defaults are `new Date()`, i.e. the current time, so the model
    takes `now`.  Unknown fields default to the empty string. -/
def getDefaultValueForField (now : Int) (field : String) : JVal :=
  if field = "id" then .vstr "0"
  else if field = "name" then .vstr "Unknown"
  else if field = "title" then .vstr "Unknown"
  else if field = "description" then .vstr ""
  else if field = "startDate" then .vdate now
  else if field = "endDate" then .vdate now
  else if field = "type" then .vstr "Unknown"
  else if field = "rarity" then .vstr "N"
  else if field = "card_id" then .vstr "0"
  else if field = "atk" then .vnum 0
  else if field = "def" then .vnum 0
  else if field = "hp" then .vnum 0
  else if field = "stages" then .vlist []
  else if field = "missions" then .vlist []
  else if field = "items" then .vlist []
  else .vstr ""

/-- A parser configuration: required fields plus per-field
    transformations.  A transformation is a JS function that may throw,
    hence `Except String`. -/
structure Parser where
  requiredFields : List String
  transformations : List (String × (JVal → Except String JVal))

/-- The default parser (`config.parsers.default`): no requirements, no
    transformations. -/
def defaultParser : Parser := ⟨[], []⟩

/-- Parser-registry lookup `config.parsers[dataType] || config.parsers.default`. -/
def getParserConfig (parsers : List (String × Parser)) (dataType : String) : Parser :=
  (parsers.lookup dataType).getD defaultParser

/-- First stage of WikiUpdater.parseData on one item: for every required
    field in order, if the property is undefined, write the default. -/
def fillRequired (now : Int) (req : List String) (item : JVal) : JVal :=
  req.foldl
    (fun it f =>
      if (getField it f).isSome then it
      else setField it f (getDefaultValueForField now f))
    item

/-- Second stage of WikiUpdater.parseData on one item: for every
    (field, transform) entry in order, if the property is defined, apply
    the transform; a thrown transform is caught and the original value is
    left in place. -/
def applyTransforms (ts : List (String × (JVal → Except String JVal))) (item : JVal) : JVal :=
  ts.foldl
    (fun it ft =>
      match getField it ft.1 with
      | none => it
      | some v =>
        match ft.2 v with
        | .ok v2 => setField it ft.1 v2
        | .error _ => it)
    item

/-- The per-item body of WikiUpdater.parseData. -/
def parseItem (now : Int) (p : Parser) (item : JVal) : JVal :=
  applyTransforms p.transformations (fillRequired now p.requiredFields item)

/-- `Array.isArray(rawData) ? rawData : [rawData]`. -/
def jvalToArray : JVal → List JVal
  | .vlist l => l
  | v => [v]

/-- WikiUpdater.parseData: wrap a non-array payload, then map the
    per-item parser over the batch. -/
def parseData (now : Int) (p : Parser) (rawData : JVal) : List JVal :=
  (jvalToArray rawData).map (parseItem now p)

/- Orchestrator: WikiUpdater.getDataFromPrioritizedSources.  Every
   `Date.now()` inside one invocation is modelled as the single instant
   `now`; `respectRateLimit` only reads `lastRequestTime` and suspends,
   mutating nothing, so it contributes no state change to the model.
   A fetch attempt is an oracle `fetchFn : String → Except String JVal`
   (the thrown error is its message string). -/

/-- The two error exits of getDataFromPrioritizedSources: the missing
    priority-list throw and the all-sources-exhausted throw, the latter
    carrying the last observed error message if any attempt threw. -/
inductive OrchError where
  | noPriorities (dataType : String)
  | allFailed (dataType : String) (lastError : Option String)
deriving Repr, DecidableEq

/-- The message text of the thrown Error object. -/
def orchErrorMessage : OrchError → String
  | .noPriorities dt => "No source priorities defined for data type: " ++ dt
  | .allFailed dt none => "Failed to fetch " ++ dt ++ " from all sources"
  | .allFailed dt (some m) => "Failed to fetch " ++ dt ++ " from all sources: " ++ m

/-- A successful orchestrator result: the parsed batch with the
    `source` and `fetchTime` metadata the code attaches to it. -/
structure FetchedData where
  data : List JVal
  source : String
  fetchTime : Int
deriving Repr

/-- Assoc-list update for the lastRequestTime map
    (`this.lastRequestTime[source] = Date.now()`). -/
def setTime (k : String) (t : Int) : List (String × Int) → List (String × Int)
  | [] => [(k, t)]
  | (k1, t1) :: rest => if k1 = k then (k, t) :: rest else (k1, t1) :: setTime k t rest

/-- Observable outcome of one orchestrator invocation: the returned or
    thrown value, the final lastRequestTime map, and the sources on which
    fetchFn was actually invoked, in order. -/
structure OrchRun where
  result : Except OrchError FetchedData
  lastRequestTime : List (String × Int)
  attempted : List String
deriving Repr

/-- The source loop of getDataFromPrioritizedSources: try each source in
    order; on a throw record the error and continue (lastRequestTime is
    NOT updated, since the assignment sits after the awaited fetch); on a
    normal return update lastRequestTime, skip empty results, and return
    the parsed, stamped data on the first non-empty one. -/
def trySources (dataType : String) (p : Parser) (fetchFn : String → Except String JVal)
    (now : Int) :
    List String → Option String → List (String × Int) → OrchRun
  | [], lastError, lrt => ⟨.error (.allFailed dataType lastError), lrt, []⟩
  | s :: rest, lastError, lrt =>
    match fetchFn s with
    | .error e =>
      let r := trySources dataType p fetchFn now rest (some e) lrt
      ⟨r.result, r.lastRequestTime, s :: r.attempted⟩
    | .ok raw =>
      let lrt1 := setTime s now lrt
      if isEmptyResult raw then
        let r := trySources dataType p fetchFn now rest lastError lrt1
        ⟨r.result, r.lastRequestTime, s :: r.attempted⟩
      else
        ⟨.ok ⟨parseData now p raw, s, now⟩, lrt1, [s]⟩

/-- WikiUpdater.getDataFromPrioritizedSources: look up the priority list
    for the data type (throwing when missing or empty), then walk it. -/
def getDataFromPrioritizedSources (parsers : List (String × Parser))
    (sourcePriorities : List (String × List String)) (dataType : String)
    (fetchFn : String → Except String JVal) (now : Int)
    (lrt : List (String × Int)) : OrchRun :=
  match sourcePriorities.lookup dataType with
  | none => ⟨.error (.noPriorities dataType), lrt, []⟩
  | some ps =>
    if ps.isEmpty then ⟨.error (.noPriorities dataType), lrt, []⟩
    else trySources dataType (getParserConfig parsers dataType) fetchFn now ps none lrt

/-- An attempt on source `s` fails for fallback purposes when the fetch
    throws or returns an empty/falsy payload. -/
def attemptFailsB (fetchFn : String → Except String JVal) (s : String) : Bool :=
  match fetchFn s with
  | .error _ => true
  | .ok raw => isEmptyResult raw

/-- The last error message among the throwing attempts of a source list,
    in attempt order. -/
def lastErrorOf (fetchFn : String → Except String JVal) (ps : List String) : Option String :=
  (ps.filterMap
    (fun s =>
      match fetchFn s with
      | .error e => some e
      | .ok _ => none)).getLast?

/- Helper lemmas about the lastRequestTime assoc map. -/

theorem lookup_setTime_self (k : String) (t : Int) :
    ∀ l : List (String × Int), (setTime k t l).lookup k = some t
  | [] => by simp [setTime, List.lookup]
  | (k1, t1) :: rest => by
    by_cases h : k1 = k
    · simp [setTime, h, List.lookup]
    · have hne : (k == k1) = false := beq_eq_false_iff_ne.mpr (fun hh => h hh.symm)
      simp [setTime, h, List.lookup, hne, lookup_setTime_self k t rest]

theorem lookup_setTime_ne (k k2 : String) (t : Int) (hne : k2 ≠ k) :
    ∀ l : List (String × Int), (setTime k t l).lookup k2 = l.lookup k2
  | [] => by
    have h : (k2 == k) = false := beq_eq_false_iff_ne.mpr hne
    simp [setTime, List.lookup, h]
  | (k1, t1) :: rest => by
    by_cases h : k1 = k
    · have hk2 : (k2 == k) = false := beq_eq_false_iff_ne.mpr hne
      have hk2b : (k2 == k1) = false := by
        subst h
        exact hk2
      simp [setTime, h, List.lookup, hk2, hk2b]
    · simp [setTime, h, List.lookup, lookup_setTime_ne k k2 t hne rest]

theorem getLast?_cons_or {α : Type} (a : α) (l : List α) :
    (a :: l).getLast? = l.getLast?.or (some a) := by
  induction l generalizing a with
  | nil => simp
  | cons b rest ih =>
    rw [List.getLast?_cons_cons, ih b]
    cases h : rest.getLast? with
    | none => simp [Option.or]
    | some c => simp [Option.or]

/-- Whether an attempt returned normally (did not throw). -/
def exceptIsOk : Except String JVal → Bool
  | .ok _ => true
  | .error _ => false

/-- Concrete oracle for witnesses: fandom throws, dokkanInfo returns one
    record. -/
def sampleFetch : String → Except String JVal := fun s =>
  if s = "fandom" then .error "network down"
  else .ok (.vlist [.vobj [("name", .vstr "X")]])

/-- Concrete oracle for witnesses: fandom throws, dokkanInfo returns an
    empty array, so every source fails. -/
def failFetch : String → Except String JVal := fun s =>
  if s = "fandom" then .error "fandom down"
  else .ok (.vlist [])

theorem trySources_first_success (dataType : String) (p : Parser)
    (fetchFn : String → Except String JVal) (now : Int)
    (s : String) (post : List String) (raw : JVal)
    (hs : fetchFn s = .ok raw) (hne : isEmptyResult raw = false) :
    ∀ (pre : List String) (lastError : Option String) (lrt : List (String × Int)),
      (∀ t ∈ pre, attemptFailsB fetchFn t = true) →
      (trySources dataType p fetchFn now (pre ++ s :: post) lastError lrt).result =
          .ok ⟨parseData now p raw, s, now⟩ ∧
        (trySources dataType p fetchFn now (pre ++ s :: post) lastError lrt).attempted =
          pre ++ [s]
  | [], lastError, lrt, _ => by
    simp [trySources, hs, hne]
  | t :: pre2, lastError, lrt, hfail => by
    have ht : attemptFailsB fetchFn t = true := hfail t (by simp)
    have hrest : ∀ u ∈ pre2, attemptFailsB fetchFn u = true :=
      fun u hu => hfail u (by simp [hu])
    cases hft : fetchFn t with
    | error e =>
      have ih := trySources_first_success dataType p fetchFn now s post raw hs hne
        pre2 (some e) lrt hrest
      simp [trySources, hft, ih.1, ih.2]
    | ok raw2 =>
      have hempty : isEmptyResult raw2 = true := by
        unfold attemptFailsB at ht
        rw [hft] at ht
        exact ht
      have ih := trySources_first_success dataType p fetchFn now s post raw hs hne
        pre2 lastError (setTime t now lrt) hrest
      simp [trySources, hft, hempty, ih.1, ih.2]

/-- C1: for every data type with a non-empty source priority list, the
    prioritized fetch tries sources strictly in list order and returns
    the parsed result of the first source whose fetch neither throws nor
    yields an empty/falsy result, stamped with that source's identifier
    and the fetch timestamp; the sources after the first success are
    never invoked (attempted = pre ++ [s]). -/
theorem getData_first_success_wins (parsers : List (String × Parser))
    (sourcePriorities : List (String × List String)) (dataType : String)
    (fetchFn : String → Except String JVal) (now : Int) (lrt : List (String × Int))
    (pre post : List String) (s : String) (raw : JVal)
    (hps : sourcePriorities.lookup dataType = some (pre ++ s :: post))
    (hpre : ∀ t ∈ pre, attemptFailsB fetchFn t = true)
    (hs : fetchFn s = .ok raw) (hne : isEmptyResult raw = false) :
    (getDataFromPrioritizedSources parsers sourcePriorities dataType fetchFn now lrt).result =
        .ok ⟨parseData now (getParserConfig parsers dataType) raw, s, now⟩ ∧
      (getDataFromPrioritizedSources parsers sourcePriorities dataType fetchFn now lrt).attempted =
        pre ++ [s] := by
  have h := trySources_first_success dataType (getParserConfig parsers dataType) fetchFn now
    s post raw hs hne pre none lrt hpre
  have hie : (pre ++ s :: post).isEmpty = false := by
    cases pre <;> rfl
  simp [getDataFromPrioritizedSources, hps, hie, h.1, h.2]

/-- Closed instance of the C1 theorem: fandom throws, dokkanInfo
    delivers, and the run stops right after dokkanInfo. -/
theorem getData_first_success_wins_witness :
    (getDataFromPrioritizedSources [] [("cards", ["fandom", "dokkanInfo"])] "cards"
        sampleFetch 100 [("fandom", 0), ("dokkanInfo", 0)]).result =
        .ok ⟨parseData 100 (getParserConfig [] "cards")
          (.vlist [.vobj [("name", .vstr "X")]]), "dokkanInfo", 100⟩ ∧
      (getDataFromPrioritizedSources [] [("cards", ["fandom", "dokkanInfo"])] "cards"
          sampleFetch 100 [("fandom", 0), ("dokkanInfo", 0)]).attempted =
        ["fandom", "dokkanInfo"] :=
  getData_first_success_wins [] [("cards", ["fandom", "dokkanInfo"])] "cards"
    sampleFetch 100 [("fandom", 0), ("dokkanInfo", 0)]
    ["fandom"] [] "dokkanInfo" (.vlist [.vobj [("name", .vstr "X")]])
    (by decide) (by decide) (by rfl) (by rfl)

/-- C2 (amended): inside the prioritized fetch, lastRequestTime[s] is set
    to the current time exactly for the sources whose attempt was made
    and returned normally (success or empty result); a source whose fetch
    threw — and any source never attempted — keeps its previous
    timestamp, because the assignment sits after the awaited fetch call. -/
theorem trySources_lastRequestTime (dataType : String) (p : Parser)
    (fetchFn : String → Except String JVal) (now : Int) (s2 : String) :
    ∀ (ps : List String) (lastError : Option String) (lrt : List (String × Int)),
      (trySources dataType p fetchFn now ps lastError lrt).lastRequestTime.lookup s2 =
        if s2 ∈ (trySources dataType p fetchFn now ps lastError lrt).attempted ∧
            exceptIsOk (fetchFn s2) = true
        then some now
        else lrt.lookup s2
  | [], lastError, lrt => by
    simp [trySources]
  | s :: rest, lastError, lrt => by
    cases hft : fetchFn s with
    | error e =>
      have ih := trySources_lastRequestTime dataType p fetchFn now s2 rest (some e) lrt
      simp only [trySources, hft]
      rw [ih]
      by_cases hs2 : s2 = s
      · subst hs2
        simp [hft, exceptIsOk]
      · simp only [List.mem_cons, hs2, false_or]
    | ok raw =>
      cases hemp : isEmptyResult raw with
      | true =>
        have ih := trySources_lastRequestTime dataType p fetchFn now s2 rest lastError
          (setTime s now lrt)
        simp only [trySources, hft, hemp, if_pos]
        rw [ih]
        by_cases hs2 : s2 = s
        · subst hs2
          simp only [hft, exceptIsOk, List.mem_cons, true_or, and_true, true_and]
          by_cases hmem : s2 ∈ (trySources dataType p fetchFn now rest lastError
              (setTime s2 now lrt)).attempted
          · simp [hmem]
          · simp [hmem, lookup_setTime_self]
        · simp only [List.mem_cons, hs2, false_or]
          rw [lookup_setTime_ne s s2 now hs2]
      | false =>
        simp only [trySources, hft, hemp, Bool.false_eq_true, if_false]
        by_cases hs2 : s2 = s
        · subst hs2
          simp [hft, exceptIsOk, lookup_setTime_self]
        · have hcond : ¬ (s2 ∈ [s] ∧ exceptIsOk (fetchFn s2) = true) := by
            simp [hs2]
          rw [if_neg hcond, lookup_setTime_ne s s2 now hs2]

/-- C2 counterexample: with priority list [fandom, dokkanInfo], fandom's
    fetch throws; fandom is attempted, yet its lastRequestTime entry is
    left at its old value 0 instead of being set to the current time 100
    — refuting "set after the attempt regardless of outcome". -/
theorem lastRequestTime_on_throw_cex :
    "fandom" ∈ (getDataFromPrioritizedSources [] [("cards", ["fandom", "dokkanInfo"])] "cards"
        sampleFetch 100 [("fandom", 0), ("dokkanInfo", 0)]).attempted ∧
      (getDataFromPrioritizedSources [] [("cards", ["fandom", "dokkanInfo"])] "cards"
          sampleFetch 100 [("fandom", 0), ("dokkanInfo", 0)]).lastRequestTime.lookup "fandom" =
        some 0 ∧
      (0 : Int) ≠ 100 := by
  refine ⟨by decide, by decide, by decide⟩

theorem trySources_all_fail (dataType : String) (p : Parser)
    (fetchFn : String → Except String JVal) (now : Int) :
    ∀ (ps : List String) (lastError : Option String) (lrt : List (String × Int)),
      (∀ t ∈ ps, attemptFailsB fetchFn t = true) →
      (trySources dataType p fetchFn now ps lastError lrt).result =
        .error (.allFailed dataType ((lastErrorOf fetchFn ps).or lastError))
  | [], lastError, lrt, _ => by
    simp [trySources, lastErrorOf, Option.or]
  | s :: rest, lastError, lrt, hfail => by
    have hrest : ∀ u ∈ rest, attemptFailsB fetchFn u = true :=
      fun u hu => hfail u (by simp [hu])
    cases hft : fetchFn s with
    | error e =>
      have ih := trySources_all_fail dataType p fetchFn now rest (some e) lrt hrest
      have hlast : lastErrorOf fetchFn (s :: rest) = (lastErrorOf fetchFn rest).or (some e) := by
        unfold lastErrorOf
        rw [List.filterMap_cons]
        simp only [hft]
        exact getLast?_cons_or e _
      rw [hlast]
      have hassoc :
          ((lastErrorOf fetchFn rest).or (some e)).or lastError =
            (lastErrorOf fetchFn rest).or (some e) := by
        cases lastErrorOf fetchFn rest <;> simp [Option.or]
      rw [hassoc]
      simp [trySources, hft, ih]
    | ok raw =>
      have hempty : isEmptyResult raw = true := by
        have ht := hfail s (by simp)
        unfold attemptFailsB at ht
        rw [hft] at ht
        exact ht
      have ih := trySources_all_fail dataType p fetchFn now rest lastError
        (setTime s now lrt) hrest
      have hlast : lastErrorOf fetchFn (s :: rest) = lastErrorOf fetchFn rest := by
        unfold lastErrorOf
        rw [List.filterMap_cons]
        simp only [hft]
      rw [hlast]
      simp [trySources, hft, hempty, ih]

/-- C4: if every source in the data type's priority list is exhausted
    without a non-empty, non-throwing result, the prioritized fetch
    throws the all-sources-failed error carrying the last error observed
    among the throwing attempts (none when every attempt merely returned
    empty); the caller gets the error, not a partial result. -/
theorem getData_all_sources_exhausted (parsers : List (String × Parser))
    (sourcePriorities : List (String × List String)) (dataType : String)
    (fetchFn : String → Except String JVal) (now : Int) (lrt : List (String × Int))
    (ps : List String)
    (hps : sourcePriorities.lookup dataType = some ps) (hnonempty : ps ≠ [])
    (hfail : ∀ t ∈ ps, attemptFailsB fetchFn t = true) :
    (getDataFromPrioritizedSources parsers sourcePriorities dataType fetchFn now lrt).result =
      .error (.allFailed dataType (lastErrorOf fetchFn ps)) := by
  have h := trySources_all_fail dataType (getParserConfig parsers dataType) fetchFn now
    ps none lrt hfail
  have hor : (lastErrorOf fetchFn ps).or none = lastErrorOf fetchFn ps := by
    cases lastErrorOf fetchFn ps <;> simp [Option.or]
  have hie : ps.isEmpty = false := by
    cases ps with
    | nil => exact absurd rfl hnonempty
    | cons a l => rfl
  rw [hor] at h
  simp [getDataFromPrioritizedSources, hps, hie, h]

/-- Closed instance of the C4 theorem: fandom throws "fandom down",
    dokkanInfo returns an empty array; the run fails with the exhausted
    error carrying fandom's error as the last one observed. -/
theorem getData_all_sources_exhausted_witness :
    (getDataFromPrioritizedSources [] [("cards", ["fandom", "dokkanInfo"])] "cards"
        failFetch 100 [("fandom", 0), ("dokkanInfo", 0)]).result =
      .error (.allFailed "cards" (lastErrorOf failFetch ["fandom", "dokkanInfo"])) :=
  getData_all_sources_exhausted [] [("cards", ["fandom", "dokkanInfo"])] "cards"
    failFetch 100 [("fandom", 0), ("dokkanInfo", 0)] ["fandom", "dokkanInfo"]
    (by decide) (by decide) (by decide)

/- Helper lemmas about field lookup and update on records. -/

theorem lookup_setPair_self (k : String) (v : JVal) :
    ∀ fs : List (String × JVal), (setPair k v fs).lookup k = some v
  | [] => by simp [setPair, List.lookup]
  | (k1, v1) :: rest => by
    by_cases h : k1 = k
    · simp [setPair, h, List.lookup]
    · have hne : (k == k1) = false := beq_eq_false_iff_ne.mpr (fun hh => h hh.symm)
      simp [setPair, h, List.lookup, hne, lookup_setPair_self k v rest]

theorem lookup_setPair_ne (k k2 : String) (v : JVal) (hne : k2 ≠ k) :
    ∀ fs : List (String × JVal), (setPair k v fs).lookup k2 = fs.lookup k2
  | [] => by
    have h : (k2 == k) = false := beq_eq_false_iff_ne.mpr hne
    simp [setPair, List.lookup, h]
  | (k1, v1) :: rest => by
    by_cases h : k1 = k
    · have hk2 : (k2 == k) = false := beq_eq_false_iff_ne.mpr hne
      have hk2b : (k2 == k1) = false := by
        subst h
        exact hk2
      simp [setPair, h, List.lookup, hk2, hk2b]
    · simp [setPair, h, List.lookup, lookup_setPair_ne k k2 v hne rest]

theorem getField_setField_obj (fs : List (String × JVal)) (f f2 : String) (v : JVal) :
    getField (setField (.vobj fs) f v) f2 = if f2 = f then some v else fs.lookup f2 := by
  by_cases h : f2 = f
  · subst h
    simp [setField, getField, lookup_setPair_self]
  · simp [setField, getField, h, lookup_setPair_ne f f2 v h]

theorem getField_setField_mono (item : JVal) (f f2 : String) (v : JVal)
    (h : (getField item f2).isSome = true) :
    (getField (setField item f v) f2).isSome = true := by
  cases item with
  | vobj fs =>
    rw [getField_setField_obj]
    by_cases hf : f2 = f
    · simp [hf]
    · simp only [hf, if_false]
      exact h
  | vnull => exact h
  | vbool b => exact h
  | vnum q => exact h
  | vstr s => exact h
  | vdate t => exact h
  | vlist l => exact h

theorem fillRequired_mono (now : Int) :
    ∀ (req : List String) (item : JVal) (f : String),
      (getField item f).isSome = true →
      (getField (fillRequired now req item) f).isSome = true
  | [], item, f, h => h
  | r :: rest, item, f, h => by
    show (getField (fillRequired now rest _) f).isSome = true
    by_cases hr : (getField item r).isSome = true
    · exact fillRequired_mono now rest _ f (by simpa [fillRequired, hr] using h)
    · have hstep :
          (List.foldl (fun it g =>
            if (getField it g).isSome then it
            else setField it g (getDefaultValueForField now g)) item (r :: rest)) =
          fillRequired now rest (setField item r (getDefaultValueForField now r)) := by
        simp [fillRequired, List.foldl, hr]
      have h2 : (getField (setField item r (getDefaultValueForField now r)) f).isSome = true :=
        getField_setField_mono item r f _ h
      simpa [fillRequired, hr] using fillRequired_mono now rest _ f h2

theorem fillRequired_obj (now : Int) :
    ∀ (req : List String) (fs : List (String × JVal)),
      ∃ fs2, fillRequired now req (.vobj fs) = .vobj fs2
  | [], fs => ⟨fs, rfl⟩
  | r :: rest, fs => by
    by_cases hr : (getField (JVal.vobj fs) r).isSome = true
    · have := fillRequired_obj now rest fs
      simpa [fillRequired, List.foldl, hr] using this
    · have := fillRequired_obj now rest (setPair r (getDefaultValueForField now r) fs)
      simpa [fillRequired, List.foldl, hr, setField] using this

theorem getField_fillRequired_present (now : Int) :
    ∀ (req : List String) (fs : List (String × JVal)) (f : String), f ∈ req →
      (getField (fillRequired now req (.vobj fs)) f).isSome = true
  | [], fs, f, h => absurd h (List.not_mem_nil f)
  | r :: rest, fs, f, h => by
    by_cases hf : f = r
    · subst hf
      by_cases hr : (getField (JVal.vobj fs) f).isSome = true
      · have : fillRequired now (f :: rest) (.vobj fs) = fillRequired now rest (.vobj fs) := by
          simp [fillRequired, List.foldl, hr]
        rw [this]
        exact fillRequired_mono now rest _ f hr
      · have hstep : fillRequired now (f :: rest) (.vobj fs) =
            fillRequired now rest (.vobj (setPair f (getDefaultValueForField now f) fs)) := by
          simp [fillRequired, List.foldl, hr, setField]
        rw [hstep]
        refine fillRequired_mono now rest _ f ?_
        simp [getField, lookup_setPair_self]
    · have hmem : f ∈ rest := by
        cases List.mem_cons.mp h with
        | inl hh => exact absurd hh hf
        | inr hh => exact hh
      by_cases hr : (getField (JVal.vobj fs) r).isSome = true
      · have : fillRequired now (r :: rest) (.vobj fs) = fillRequired now rest (.vobj fs) := by
          simp [fillRequired, List.foldl, hr]
        rw [this]
        exact getField_fillRequired_present now rest fs f hmem
      · have hstep : fillRequired now (r :: rest) (.vobj fs) =
            fillRequired now rest (.vobj (setPair r (getDefaultValueForField now r) fs)) := by
          simp [fillRequired, List.foldl, hr, setField]
        rw [hstep]
        exact getField_fillRequired_present now rest _ f hmem

theorem applyTransforms_mono :
    ∀ (ts : List (String × (JVal → Except String JVal))) (item : JVal) (f : String),
      (getField item f).isSome = true →
      (getField (applyTransforms ts item) f).isSome = true
  | [], item, f, h => h
  | t :: rest, item, f, h => by
    have hstep : ∀ it2,
        (getField it2 f).isSome = true →
        (getField (applyTransforms rest it2) f).isSome = true :=
      fun it2 hh => applyTransforms_mono rest it2 f hh
    cases hg : getField item t.1 with
    | none =>
      exact (by simpa [applyTransforms, List.foldl, hg] using hstep item h)
    | some v =>
      cases htr : t.2 v with
      | ok v2 =>
        have h2 := getField_setField_mono item t.1 f v2 h
        simpa [applyTransforms, List.foldl, hg, htr] using hstep _ h2
      | error e =>
        simpa [applyTransforms, List.foldl, hg, htr] using hstep item h

theorem applyTransforms_all_throw :
    ∀ (ts : List (String × (JVal → Except String JVal))),
      (∀ ft ∈ ts, ∀ v, ∃ e, ft.2 v = .error e) →
      ∀ item, applyTransforms ts item = item
  | [], _, item => rfl
  | t :: rest, hthrow, item => by
    have hrest : ∀ ft ∈ rest, ∀ v, ∃ e, ft.2 v = .error e :=
      fun ft hft v => hthrow ft (by simp [hft]) v
    cases hg : getField item t.1 with
    | none =>
      simpa [applyTransforms, List.foldl, hg] using
        applyTransforms_all_throw rest hrest item
    | some v =>
      obtain ⟨e, he⟩ := hthrow t (by simp) v
      simpa [applyTransforms, List.foldl, hg, he] using
        applyTransforms_all_throw rest hrest item

/-- C5: parseData is total over a record batch: it returns one output
    record per input record in the same order (each output a pure
    function of its input), every required field is present in every
    object record after parsing (missing ones are filled with the
    default), and when every transformation throws, the transformation
    stage changes nothing — each field keeps the value it had after
    default filling. -/
theorem parseData_total (now : Int) (p : Parser) (items : List JVal) :
    parseData now p (.vlist items) = items.map (parseItem now p) ∧
      (∀ fs, JVal.vobj fs ∈ items → ∀ f ∈ p.requiredFields,
        (getField (parseItem now p (.vobj fs)) f).isSome = true) ∧
      ((∀ ft ∈ p.transformations, ∀ v, ∃ e, ft.2 v = .error e) →
        parseData now p (.vlist items) = items.map (fillRequired now p.requiredFields)) := by
  refine ⟨rfl, ?_, ?_⟩
  · intro fs _ f hf
    exact applyTransforms_mono p.transformations _ f
      (getField_fillRequired_present now p.requiredFields fs f hf)
  · intro hthrow
    simp only [parseData, jvalToArray]
    refine List.map_congr_left ?_
    intro it _
    unfold parseItem
    rw [applyTransforms_all_throw p.transformations hthrow]

/-- A parser whose sole transformation always throws, used to witness the
    C5 theorem at a concrete input. -/
def throwParser : Parser :=
  ⟨["name", "id"], [("name", fun _ => .error "transform failed")]⟩

/-- Closed instance of the C5 theorem: a record missing every required
    field and carrying an unknown extra field, under an always-throwing
    transformation, is returned (one output for the one input) with the
    required fields default-filled and the transformation stage a no-op. -/
theorem parseData_total_witness :
    parseData 50 throwParser (.vlist [.vobj [("extra", .vnull)]]) =
        [.vobj [("extra", .vnull)]].map (fillRequired 50 ["name", "id"]) ∧
      (getField (parseItem 50 throwParser (.vobj [("extra", .vnull)])) "name").isSome = true := by
  have h := parseData_total 50 throwParser [.vobj [("extra", .vnull)]]
  refine ⟨h.2.2 ?_, h.2.1 [("extra", .vnull)] (by simp) "name" (by simp [throwParser])⟩
  intro ft hft v
  have : ft = ("name", fun _ => Except.error "transform failed") := by
    simpa [throwParser] using hft
  rw [this]
  exact ⟨"transform failed", rfl⟩

/- Cache-aware update coordinator: WikiUpdater.updateFromWiki.  The
   parser-discovery prologue (discoverAndCreateParsers) swallows its own
   errors and only touches data types that have no parser yet; it is
   orthogonal to the per-type refresh loop modelled here.  The per-type
   fetch helpers (getLatestCardsFromBestSource etc.) all delegate to
   getDataFromPrioritizedSources with a per-type fetch closure, modelled
   as the oracle `fetchFn : String → String → Except String JVal`
   (data type → source → outcome). -/

/-- A cache entry as written by updateFromWiki:
    data, timestamp: Date.now(), source. -/
structure CacheEntry where
  data : List JVal
  timestamp : Int
  source : String
deriving Repr

/-- The per-type cache TTLs of config.dataTypes. -/
def configCacheTtl : List (String × Int) :=
  [("cards", 3600000), ("events", 1800000), ("ezas", 3600000), ("dokkanEvents", 3600000),
   ("storyEvents", 3600000), ("missions", 3600000), ("items", 7200000)]

/-- TTL lookup `config.dataTypes[dataType]?.cacheTtl || 3600000`; all
    configured TTLs are non-zero, so the falsy-default collapses to a
    plain default. -/
def cacheTtlFor (dt : String) : Int :=
  (configCacheTtl.lookup dt).getD 3600000

/-- One entry of the per-type results object: count, the fromCache flag,
    the source when fetched fresh, or the no-data error string. -/
structure TypeEntry where
  count : Nat
  fromCache : Bool
  source : Option String
  error : Option String
deriving Repr, DecidableEq

/-- Assoc-list update for the cache store (dataManager.cacheData
    overwrites the key). -/
def setCache (k : String) (e : CacheEntry) :
    List (String × CacheEntry) → List (String × CacheEntry)
  | [] => [(k, e)]
  | (k1, e1) :: rest => if k1 = k then (k, e) :: rest else (k1, e1) :: setCache k e rest

theorem lookup_setCache_self (k : String) (e : CacheEntry) :
    ∀ c : List (String × CacheEntry), (setCache k e c).lookup k = some e
  | [] => by simp [setCache, List.lookup]
  | (k1, e1) :: rest => by
    by_cases h : k1 = k
    · simp [setCache, h, List.lookup]
    · have hne : (k == k1) = false := beq_eq_false_iff_ne.mpr (fun hh => h hh.symm)
      simp [setCache, h, List.lookup, hne, lookup_setCache_self k e rest]

/-- Observable outcome of one per-type step of the update loop. -/
structure TypeStep where
  outcome : Except OrchError TypeEntry
  cache : List (String × CacheEntry)
  lastRequestTime : List (String × Int)
  attempted : List String
deriving Repr

/-- The miss/stale path of the loop body: fetch via the orchestrator; on
    success with non-empty data, cache the payload with the current
    timestamp and source and report a fresh entry; on (unreachable-
    in-practice) empty data report the no-data entry without caching; a
    thrown orchestrator error propagates. -/
def refreshType (parsers : List (String × Parser))
    (sourcePriorities : List (String × List String))
    (fetchFn : String → String → Except String JVal) (now : Int)
    (cache : List (String × CacheEntry)) (lrt : List (String × Int))
    (dt : String) : TypeStep :=
  let run := getDataFromPrioritizedSources parsers sourcePriorities dt (fetchFn dt) now lrt
  match run.result with
  | .error e => ⟨.error e, cache, run.lastRequestTime, run.attempted⟩
  | .ok fd =>
    if fd.data.length > 0 then
      ⟨.ok ⟨fd.data.length, false, some fd.source, none⟩,
        setCache dt ⟨fd.data, now, fd.source⟩ cache, run.lastRequestTime, run.attempted⟩
    else
      ⟨.ok ⟨0, false, none, some "No data found"⟩, cache, run.lastRequestTime, run.attempted⟩

/-- One iteration of the per-type loop of updateFromWiki: serve from the
    cache when the entry is younger than the type's TTL (no fetch, no
    state change), else refresh. -/
def processType (parsers : List (String × Parser))
    (sourcePriorities : List (String × List String))
    (fetchFn : String → String → Except String JVal) (now : Int)
    (cache : List (String × CacheEntry)) (lrt : List (String × Int))
    (dt : String) : TypeStep :=
  match cache.lookup dt with
  | some entry =>
    if now - entry.timestamp < cacheTtlFor dt then
      ⟨.ok ⟨entry.data.length, true, none, none⟩, cache, lrt, []⟩
    else refreshType parsers sourcePriorities fetchFn now cache lrt dt
  | none => refreshType parsers sourcePriorities fetchFn now cache lrt dt

/-- The value updateFromWiki resolves with, plus the cache and rate-limit
    state and the flat list of (dataType, source) fetch attempts made. -/
structure UpdateOutcome where
  success : Bool
  message : String
  results : List (String × TypeEntry)
  cache : List (String × CacheEntry)
  lastRequestTime : List (String × Int)
  fetches : List (String × String)
deriving Repr

/-- The per-type loop of updateFromWiki.  A per-type throw escapes the
    loop to the outer catch, which returns success:false with only the
    error message — the per-type results accumulated so far are
    discarded and the remaining types are never processed. -/
def updateLoop (parsers : List (String × Parser))
    (sourcePriorities : List (String × List String))
    (fetchFn : String → String → Except String JVal) (now : Int) :
    List String → List (String × CacheEntry) → List (String × Int) →
      List (String × TypeEntry) → List (String × String) → UpdateOutcome
  | [], cache, lrt, acc, fet =>
    ⟨true, "Wiki data updated successfully", acc, cache, lrt, fet⟩
  | dt :: rest, cache, lrt, acc, fet =>
    let st := processType parsers sourcePriorities fetchFn now cache lrt dt
    match st.outcome with
    | .error e =>
      ⟨false, orchErrorMessage e, [], st.cache, st.lastRequestTime,
        fet ++ st.attempted.map (fun s => (dt, s))⟩
    | .ok entry =>
      updateLoop parsers sourcePriorities fetchFn now rest st.cache st.lastRequestTime
        (acc ++ [(dt, entry)]) (fet ++ st.attempted.map (fun s => (dt, s)))

/-- WikiUpdater.updateFromWiki on an explicit list of data types. -/
def updateFromWiki (parsers : List (String × Parser))
    (sourcePriorities : List (String × List String))
    (fetchFn : String → String → Except String JVal) (now : Int)
    (types : List String) (cache : List (String × CacheEntry))
    (lrt : List (String × Int)) : UpdateOutcome :=
  updateLoop parsers sourcePriorities fetchFn now types cache lrt [] []

/-- Per-type oracle for the batch counterexample: every source for
    "cards" throws, every other type yields one record. -/
def cexBatchFetch : String → String → Except String JVal := fun dt _ =>
  if dt = "cards" then .error "cards upstream down"
  else .ok (.vlist [.vobj [("title", .vstr "E")]])

/-- The priority configuration used in concrete runs: the constructor
    defaults of WikiUpdater for cards and events. -/
def cexPriorities : List (String × List String) :=
  [("cards", ["fandom", "dokkanInfo"]), ("events", ["dokkanInfo", "fandom"])]

/-- C3 counterexample: with an empty cache, "cards" failing on every
    source and "events" perfectly healthy, the batch update aborts on the
    cards throw: it returns success = false with NO per-type result
    entries — "events" is never processed (no fetch for it is made) —
    although updating ["events"] alone succeeds with its per-type entry. -/
theorem updateFromWiki_abort_cex :
    (updateFromWiki [] cexPriorities cexBatchFetch 100 ["cards", "events"] [] []).success =
        false ∧
      (updateFromWiki [] cexPriorities cexBatchFetch 100 ["cards", "events"] [] []).results =
        [] ∧
      (updateFromWiki [] cexPriorities cexBatchFetch 100 ["cards", "events"] [] []).fetches =
        [("cards", "fandom"), ("cards", "dokkanInfo")] ∧
      (updateFromWiki [] cexPriorities cexBatchFetch 100 ["events"] [] []).success = true ∧
      (updateFromWiki [] cexPriorities cexBatchFetch 100 ["events"] [] []).results =
        [("events", ⟨1, false, some "dokkanInfo", none⟩)] := by
  refine ⟨by decide, by decide, by decide, by decide, by decide⟩

theorem updateLoop_results_spec (parsers : List (String × Parser))
    (sourcePriorities : List (String × List String))
    (fetchFn : String → String → Except String JVal) (now : Int) :
    ∀ (types : List String) (cache : List (String × CacheEntry)) (lrt : List (String × Int))
      (acc : List (String × TypeEntry)) (fet : List (String × String)),
      ((updateLoop parsers sourcePriorities fetchFn now types cache lrt acc fet).success =
          true →
        (updateLoop parsers sourcePriorities fetchFn now types cache lrt acc fet).results.map
            Prod.fst =
          acc.map Prod.fst ++ types) ∧
      ((updateLoop parsers sourcePriorities fetchFn now types cache lrt acc fet).success =
          false →
        (updateLoop parsers sourcePriorities fetchFn now types cache lrt acc fet).results = [])
  | [], cache, lrt, acc, fet => by
    constructor
    · intro _
      simp [updateLoop]
    · intro hfail
      simp [updateLoop] at hfail
  | dt :: rest, cache, lrt, acc, fet => by
    cases hst : (processType parsers sourcePriorities fetchFn now cache lrt dt).outcome with
    | error e =>
      constructor
      · intro hsucc
        exfalso
        simp [updateLoop, hst] at hsucc
      · intro _
        simp [updateLoop, hst]
    | ok entry =>
      have heq :
          updateLoop parsers sourcePriorities fetchFn now (dt :: rest) cache lrt acc fet =
            updateLoop parsers sourcePriorities fetchFn now rest
              (processType parsers sourcePriorities fetchFn now cache lrt dt).cache
              (processType parsers sourcePriorities fetchFn now cache lrt dt).lastRequestTime
              (acc ++ [(dt, entry)])
              (fet ++
                ((processType parsers sourcePriorities fetchFn now cache lrt dt).attempted.map
                  (fun s => (dt, s)))) := by
        simp [updateLoop, hst]
      have ih := updateLoop_results_spec parsers sourcePriorities fetchFn now rest
        (processType parsers sourcePriorities fetchFn now cache lrt dt).cache
        (processType parsers sourcePriorities fetchFn now cache lrt dt).lastRequestTime
        (acc ++ [(dt, entry)])
        (fet ++
          ((processType parsers sourcePriorities fetchFn now cache lrt dt).attempted.map
            (fun s => (dt, s))))
      constructor
      · intro hsucc
        rw [heq] at hsucc ⊢
        rw [ih.1 hsucc]
        simp
      · intro hfail
        rw [heq] at hfail ⊢
        exact ih.2 hfail

/-- C3 (amended): updateFromWiki runs the per-type get-or-refresh for the
    requested types in order and records one per-type result entry per
    type, but only as long as no type's fetch throws: when the whole
    batch completes (success = true) the results carry exactly one entry
    per requested type, in request order; a thrown per-type failure
    (e.g. all sources exhausted for that type) aborts the batch — the
    call returns success = false with only the error message, the
    per-type entries gathered so far are discarded, and the remaining
    types are never processed. -/
theorem updateFromWiki_batch_behavior (parsers : List (String × Parser))
    (sourcePriorities : List (String × List String))
    (fetchFn : String → String → Except String JVal) (now : Int)
    (types : List String) (cache : List (String × CacheEntry)) (lrt : List (String × Int)) :
    ((updateFromWiki parsers sourcePriorities fetchFn now types cache lrt).success = true →
      (updateFromWiki parsers sourcePriorities fetchFn now types cache lrt).results.map
          Prod.fst =
        types) ∧
      ((updateFromWiki parsers sourcePriorities fetchFn now types cache lrt).success = false →
        (updateFromWiki parsers sourcePriorities fetchFn now types cache lrt).results = []) := by
  have h := updateLoop_results_spec parsers sourcePriorities fetchFn now types cache lrt [] []
  simpa [updateFromWiki] using h

/-- Closed instance of the C3 amended theorem: the healthy single-type
    batch yields one entry per type; the aborting batch yields none. -/
theorem updateFromWiki_batch_behavior_witness :
    (updateFromWiki [] cexPriorities cexBatchFetch 100 ["events"] [] []).results.map
        Prod.fst =
      ["events"] ∧
    (updateFromWiki [] cexPriorities cexBatchFetch 100 ["cards", "events"] [] []).results =
      [] := by
  refine ⟨(updateFromWiki_batch_behavior [] cexPriorities cexBatchFetch 100
    ["events"] [] []).1 (by decide),
    (updateFromWiki_batch_behavior [] cexPriorities cexBatchFetch 100
      ["cards", "events"] [] []).2 (by decide)⟩

theorem refreshType_ok_cache (parsers : List (String × Parser))
    (sourcePriorities : List (String × List String))
    (fetchFn : String → String → Except String JVal) (now : Int)
    (cache : List (String × CacheEntry)) (lrt : List (String × Int)) (dt : String)
    (e1 : TypeEntry)
    (h1 : (refreshType parsers sourcePriorities fetchFn now cache lrt dt).outcome = .ok e1)
    (h3 : e1.error = none) :
    ∃ fd : FetchedData,
      (refreshType parsers sourcePriorities fetchFn now cache lrt dt).cache =
        setCache dt ⟨fd.data, now, fd.source⟩ cache := by
  cases hr : (getDataFromPrioritizedSources parsers sourcePriorities dt (fetchFn dt) now
      lrt).result with
  | error e =>
    exfalso
    simp [refreshType, hr] at h1
  | ok fd =>
    by_cases hlen : fd.data.length > 0
    · exact ⟨fd, by simp [refreshType, hr, hlen]⟩
    · exfalso
      have he1 : e1 = ⟨0, false, none, some "No data found"⟩ := by
        have := h1
        simp [refreshType, hr, hlen] at this
        exact this.symm
      rw [he1] at h3
      simp at h3

/-- C7: get-or-refresh is idempotent within a TTL window.  First
    conjunct: when a cache entry for the type exists and is younger than
    the type's TTL, the per-type step reports the cached payload (its
    record count) with fromCache = true, performs no upstream fetch
    (attempted = []) and leaves all state unchanged.  Second conjunct:
    after a first call that fetched fresh data and cached it at time t0,
    a second call at any t1 with t1 - t0 < TTL makes no fetch attempt,
    reports fromCache = true and leaves the cache as the first call left
    it — so the two calls together perform exactly the first call's
    single round of upstream fetching. -/
theorem getOrRefresh_idempotent_within_ttl (parsers : List (String × Parser))
    (sourcePriorities : List (String × List String))
    (fetchFn : String → String → Except String JVal)
    (cache : List (String × CacheEntry)) (lrt : List (String × Int)) (dt : String)
    (t0 t1 : Int) :
    (∀ entry : CacheEntry, cache.lookup dt = some entry →
      t0 - entry.timestamp < cacheTtlFor dt →
      processType parsers sourcePriorities fetchFn t0 cache lrt dt =
        ⟨.ok ⟨entry.data.length, true, none, none⟩, cache, lrt, []⟩) ∧
      (∀ e1 : TypeEntry,
        (processType parsers sourcePriorities fetchFn t0 cache lrt dt).outcome = .ok e1 →
        e1.fromCache = false → e1.error = none → t1 - t0 < cacheTtlFor dt →
        (processType parsers sourcePriorities fetchFn t1
            (processType parsers sourcePriorities fetchFn t0 cache lrt dt).cache
            (processType parsers sourcePriorities fetchFn t0 cache lrt dt).lastRequestTime
            dt).attempted = [] ∧
          (processType parsers sourcePriorities fetchFn t1
              (processType parsers sourcePriorities fetchFn t0 cache lrt dt).cache
              (processType parsers sourcePriorities fetchFn t0 cache lrt dt).lastRequestTime
              dt).cache =
            (processType parsers sourcePriorities fetchFn t0 cache lrt dt).cache ∧
          (∃ cnt : Nat,
            (processType parsers sourcePriorities fetchFn t1
                (processType parsers sourcePriorities fetchFn t0 cache lrt dt).cache
                (processType parsers sourcePriorities fetchFn t0 cache lrt dt).lastRequestTime
                dt).outcome = .ok ⟨cnt, true, none, none⟩)) := by
  constructor
  · intro entry hlook hfresh
    simp [processType, hlook, hfresh]
  · intro e1 h1 h2 h3 hfresh
    have hrefresh :
        (processType parsers sourcePriorities fetchFn t0 cache lrt dt) =
          refreshType parsers sourcePriorities fetchFn t0 cache lrt dt := by
      cases hl : cache.lookup dt with
      | none => simp [processType, hl]
      | some entry =>
        by_cases hf0 : t0 - entry.timestamp < cacheTtlFor dt
        · exfalso
          have hout :
              (processType parsers sourcePriorities fetchFn t0 cache lrt dt).outcome =
                .ok ⟨entry.data.length, true, none, none⟩ := by
            simp [processType, hl, hf0]
          rw [h1] at hout
          have : e1 = ⟨entry.data.length, true, none, none⟩ := by
            have h4 : Except.ok (ε := OrchError) e1 =
                Except.ok ⟨entry.data.length, true, none, none⟩ := hout
            exact (Except.ok.injEq _ _).mp h4
          rw [this] at h2
          simp at h2
        · simp [processType, hl, hf0]
    rw [hrefresh] at h1
    obtain ⟨fd, hcache⟩ := refreshType_ok_cache parsers sourcePriorities fetchFn t0 cache lrt
      dt e1 h1 h3
    rw [hrefresh, hcache]
    have hlook2 :
        (setCache dt ⟨fd.data, t0, fd.source⟩ cache).lookup dt =
          some ⟨fd.data, t0, fd.source⟩ :=
      lookup_setCache_self dt _ cache
    refine ⟨?_, ?_, ⟨fd.data.length, ?_⟩⟩ <;>
      simp [processType, hlook2, hfresh]

/-- Closed instance of the C7 theorem: a first call at time 100 fetches
    from dokkanInfo and caches one record; a second call at time 200
    (within the 1-hour cards TTL) makes no fetch attempt, leaves the
    cache untouched and reports the cached record count with
    fromCache = true. -/
theorem getOrRefresh_idempotent_within_ttl_witness :
    (processType [] [("cards", ["fandom", "dokkanInfo"])]
        (fun _ s => sampleFetch s) 200
        (processType [] [("cards", ["fandom", "dokkanInfo"])]
          (fun _ s => sampleFetch s) 100 [] [] "cards").cache
        (processType [] [("cards", ["fandom", "dokkanInfo"])]
          (fun _ s => sampleFetch s) 100 [] [] "cards").lastRequestTime
        "cards").attempted = [] ∧
      (processType [] [("cards", ["fandom", "dokkanInfo"])]
          (fun _ s => sampleFetch s) 200
          (processType [] [("cards", ["fandom", "dokkanInfo"])]
            (fun _ s => sampleFetch s) 100 [] [] "cards").cache
          (processType [] [("cards", ["fandom", "dokkanInfo"])]
            (fun _ s => sampleFetch s) 100 [] [] "cards").lastRequestTime
          "cards").cache =
        (processType [] [("cards", ["fandom", "dokkanInfo"])]
          (fun _ s => sampleFetch s) 100 [] [] "cards").cache ∧
      (∃ cnt : Nat,
        (processType [] [("cards", ["fandom", "dokkanInfo"])]
            (fun _ s => sampleFetch s) 200
            (processType [] [("cards", ["fandom", "dokkanInfo"])]
              (fun _ s => sampleFetch s) 100 [] [] "cards").cache
            (processType [] [("cards", ["fandom", "dokkanInfo"])]
              (fun _ s => sampleFetch s) 100 [] [] "cards").lastRequestTime
            "cards").outcome = .ok ⟨cnt, true, none, none⟩) :=
  (getOrRefresh_idempotent_within_ttl [] [("cards", ["fandom", "dokkanInfo"])]
      (fun _ s => sampleFetch s) [] [] "cards" 100 200).2
    ⟨1, false, some "dokkanInfo", none⟩ (by rfl) (by rfl) (by rfl) (by decide)

/- Freshness scorer / priority updater: WikiUpdater.updateSourcePriorities
   and WikiUpdater.calculateFreshnessScore.  Scores are rationals; every
   operation performed (sums of values, division by a count, the scale
   factors) is modelled exactly.  Date-parseable strings and numeric
   version strings are represented upstream as vdate / vnum; shapes that
   would yield NaN in JS are outside the scope of the claims. -/

/-- Object.keys(config.wikiSources): the configured sources in object
    enumeration order. -/
def wikiSourceKeys : List String := ["fandom", "dokkanInfo"]

/-- JS truthiness of a property read (an undefined property is falsy). -/
def truthyField (item : JVal) (f : String) : Bool :=
  match getField item f with
  | none => false
  | some v => !(isFalsy v)

/-- The value of `a || b` for two property reads (undefined modelled as
    null; both are falsy, and the filters below guarantee one operand is
    truthy wherever the result is consumed). -/
def jsOr (a b : Option JVal) : JVal :=
  match a with
  | some v => if isFalsy v then b.getD .vnull else v
  | none => b.getD .vnull

/-- new Date(v).getTime() for the value shapes the model covers: a date
    is its epoch value, a number is itself. -/
def jsDateTime : JVal → Rat
  | .vdate t => (t : Rat)
  | .vnum q => q
  | _ => 0

/-- parseFloat(v) for the value shapes the model covers. -/
def jsParseFloat : JVal → Rat
  | .vnum q => q
  | _ => 0

/-- Object.keys(item).length: primitives have no own keys. -/
def fieldCount : JVal → Nat
  | .vobj fs => fs.length
  | _ => 0

/-- WikiUpdater.calculateFreshnessScore: 0 for empty data; otherwise the
    scaled average update timestamp (over records carrying a truthy
    updatedAt or lastModified) plus 1000 times the average version number
    (over records with a truthy version) plus 10 times the average own
    field count. -/
def calculateFreshnessScore (data : List JVal) : Rat :=
  if data.isEmpty then 0
  else
    let timestamps :=
      (data.filter
          (fun it => truthyField it "updatedAt" || truthyField it "lastModified")).map
        (fun it => jsDateTime (jsOr (getField it "updatedAt") (getField it "lastModified")))
    let score1 : Rat :=
      if timestamps.isEmpty then 0
      else timestamps.foldl (· + ·) 0 / (timestamps.length : Rat) / 1000000
    let versions :=
      (data.filter (fun it => truthyField it "version")).map
        (fun it => jsParseFloat ((getField it "version").getD .vnull))
    let score2 : Rat :=
      if versions.isEmpty then 0
      else versions.foldl (· + ·) 0 / (versions.length : Rat) * 1000
    let completeness : Rat :=
      (data.map (fun it => (fieldCount it : Rat))).foldl (· + ·) 0 / (data.length : Rat)
    score1 + score2 + completeness * 10

/-- The score a source receives in one rescoring pass: its sample's
    freshness score, or -1 when the sample fetch throws. -/
def scoreOf (sample : String → Except String (List JVal)) (s : String) : Rat :=
  match sample s with
  | .ok d => calculateFreshnessScore d
  | .error _ => -1

/-- Stable insertion into a descending-sorted list: the new element lands
    after every element whose score is greater or equal.  Folding it
    left over the input reproduces what Array.prototype.sort (stable
    since ES2019) does with the comparator (a, b) => b.score - a.score. -/
def insertDesc (x : String × Rat) : List (String × Rat) → List (String × Rat)
  | [] => [x]
  | y :: ys => if y.2 ≥ x.2 then y :: insertDesc x ys else x :: y :: ys

/-- The stable descending sort of the freshness entries. -/
def sortByScoreDesc (l : List (String × Rat)) : List (String × Rat) :=
  l.foldl (fun acc x => insertDesc x acc) []

/-- One data type's pass of WikiUpdater.updateSourcePriorities: build the
    freshness map over the configured sources in enumeration order (a
    throwing sample fetch scores -1), drop negative scores, stable-sort
    the rest descending by score, and install the result as the new
    priority list unless it is empty, in which case the existing list is
    kept.  Rate-limit bookkeeping follows the same pattern as the
    orchestrator and contributes nothing to the priority computation. -/
def updateSourcePrioritiesFor (sample : String → Except String (List JVal))
    (prior : List String) : List String :=
  let freshness : List (String × Rat) := wikiSourceKeys.map (fun s => (s, scoreOf sample s))
  let newPriorities :=
    (sortByScoreDesc (freshness.filter (fun p => p.2 ≥ 0))).map Prod.fst
  if newPriorities.length > 0 then newPriorities else prior

theorem updateSourcePrioritiesFor_eq (sample : String → Except String (List JVal))
    (prior : List String) :
    updateSourcePrioritiesFor sample prior =
      if 0 ≤ scoreOf sample "fandom" then
        if 0 ≤ scoreOf sample "dokkanInfo" then
          if scoreOf sample "fandom" ≥ scoreOf sample "dokkanInfo" then
            ["fandom", "dokkanInfo"]
          else ["dokkanInfo", "fandom"]
        else ["fandom"]
      else
        if 0 ≤ scoreOf sample "dokkanInfo" then ["dokkanInfo"] else prior := by
  by_cases hf : 0 ≤ scoreOf sample "fandom" <;>
    by_cases hd : 0 ≤ scoreOf sample "dokkanInfo"
  · by_cases hfd : scoreOf sample "fandom" ≥ scoreOf sample "dokkanInfo"
    · simp [updateSourcePrioritiesFor, wikiSourceKeys, sortByScoreDesc, insertDesc,
        List.filter, List.foldl, hf, hd, hfd, GE.ge]
    · simp [updateSourcePrioritiesFor, wikiSourceKeys, sortByScoreDesc, insertDesc,
        List.filter, List.foldl, hf, hd, hfd, GE.ge]
  · simp [updateSourcePrioritiesFor, wikiSourceKeys, sortByScoreDesc, insertDesc,
      List.filter, List.foldl, hf, hd]
  · simp [updateSourcePrioritiesFor, wikiSourceKeys, sortByScoreDesc, insertDesc,
      List.filter, List.foldl, hf, hd]
  · simp [updateSourcePrioritiesFor, wikiSourceKeys, sortByScoreDesc, insertDesc,
      List.filter, List.foldl, hf, hd]

/-- Constant sample oracle producing the same single version-2 record for
    both sources: a freshness-score tie. -/
def tieSample : String → Except String (List JVal) := fun _ =>
  .ok [.vobj [("version", .vnum 2)]]

/-- Sample oracle on which every source's sample fetch throws. -/
def allFailSample : String → Except String (List JVal) := fun _ => .error "down"

/-- C6 counterexample: both sources return identical samples (equal
    non-negative scores — a tie); with the prior priority list
    [dokkanInfo, fandom] the rescoring installs [fandom, dokkanInfo] —
    the configured-source enumeration order — so the tie does NOT keep
    the prior relative order of the priority list. -/
theorem updateSourcePriorities_tie_cex :
    scoreOf tieSample "fandom" = scoreOf tieSample "dokkanInfo" ∧
      (0 : Rat) ≤ scoreOf tieSample "fandom" ∧
      updateSourcePrioritiesFor tieSample ["dokkanInfo", "fandom"] =
        ["fandom", "dokkanInfo"] ∧
      (["fandom", "dokkanInfo"] : List String) ≠ ["dokkanInfo", "fandom"] := by
  refine ⟨rfl, ?_, ?_, by decide⟩
  · norm_num [scoreOf, tieSample, calculateFreshnessScore, truthyField, getField, isFalsy,
      jsOr, jsDateTime, jsParseFloat, fieldCount, List.lookup, List.filter, List.foldl,
      List.map]
  · norm_num [updateSourcePrioritiesFor, wikiSourceKeys, scoreOf, tieSample,
      calculateFreshnessScore, truthyField, getField, isFalsy, jsOr, jsDateTime,
      jsParseFloat, fieldCount, sortByScoreDesc, insertDesc, List.lookup, List.filter,
      List.foldl, List.map]

/-- C6 (amended): in a rescoring pass, a source whose sample fetch throws
    scores -1 and — whenever any source scored non-negatively, so that a
    new list is installed — the new priority list contains exactly the
    configured sources with non-negative score, sorted descending by
    score; a tie keeps the configured-source enumeration order (fandom
    before dokkanInfo, the order in which the sources are scored), which
    need not be the prior priority list's relative order. -/
theorem updateSourcePriorities_rescore (sample : String → Except String (List JVal))
    (prior : List String) :
    (∀ s e, sample s = .error e → scoreOf sample s = -1) ∧
      ((0 ≤ scoreOf sample "fandom" ∨ 0 ≤ scoreOf sample "dokkanInfo") →
        (∀ s, s ∈ updateSourcePrioritiesFor sample prior ↔
            s ∈ wikiSourceKeys ∧ 0 ≤ scoreOf sample s) ∧
          List.Pairwise (fun a b => scoreOf sample a ≥ scoreOf sample b)
            (updateSourcePrioritiesFor sample prior)) ∧
      (0 ≤ scoreOf sample "fandom" →
        scoreOf sample "fandom" = scoreOf sample "dokkanInfo" →
        updateSourcePrioritiesFor sample prior = ["fandom", "dokkanInfo"]) := by
  refine ⟨?_, ?_, ?_⟩
  · intro s e hs
    simp [scoreOf, hs]
  · intro hyp
    rw [updateSourcePrioritiesFor_eq]
    by_cases hf : 0 ≤ scoreOf sample "fandom" <;>
      by_cases hd : 0 ≤ scoreOf sample "dokkanInfo"
    · by_cases hfd : scoreOf sample "fandom" ≥ scoreOf sample "dokkanInfo"
      · refine ⟨?_, ?_⟩
        · intro s
          simp only [if_pos hf, if_pos hd, if_pos hfd, wikiSourceKeys]
          constructor
          · intro hmem
            rcases List.mem_cons.mp hmem with h1 | h1
            · exact ⟨by simp [h1], by rw [h1]; exact hf⟩
            · have h2 : s = "dokkanInfo" := by simpa using h1
              exact ⟨by simp [h2], by rw [h2]; exact hd⟩
          · intro ⟨hmem, _⟩
            simpa using hmem
        · simp only [if_pos hf, if_pos hd, if_pos hfd]
          exact List.pairwise_pair.mpr hfd
      · refine ⟨?_, ?_⟩
        · intro s
          simp only [if_pos hf, if_pos hd, if_neg hfd, wikiSourceKeys]
          constructor
          · intro hmem
            rcases List.mem_cons.mp hmem with h1 | h1
            · exact ⟨by simp [h1], by rw [h1]; exact hd⟩
            · have h2 : s = "fandom" := by simpa using h1
              exact ⟨by simp [h2], by rw [h2]; exact hf⟩
          · intro ⟨hmem, _⟩
            rcases (by simpa using hmem : s = "fandom" ∨ s = "dokkanInfo") with h1 | h1 <;>
              simp [h1]
        · simp only [if_pos hf, if_pos hd, if_neg hfd]
          refine List.pairwise_pair.mpr ?_
          have := lt_of_not_ge hfd
          exact le_of_lt this
    · refine ⟨?_, ?_⟩
      · intro s
        simp only [if_pos hf, if_neg hd, wikiSourceKeys]
        constructor
        · intro hmem
          have h1 : s = "fandom" := by simpa using hmem
          exact ⟨by simp [h1], by rw [h1]; exact hf⟩
        · intro ⟨hmem, hscore⟩
          rcases (by simpa using hmem : s = "fandom" ∨ s = "dokkanInfo") with h1 | h1
          · simp [h1]
          · rw [h1] at hscore
            exact absurd hscore hd
      · simp only [if_pos hf, if_neg hd]
        exact List.pairwise_singleton _ _
    · refine ⟨?_, ?_⟩
      · intro s
        simp only [if_neg hf, if_pos hd, wikiSourceKeys]
        constructor
        · intro hmem
          have h1 : s = "dokkanInfo" := by simpa using hmem
          exact ⟨by simp [h1], by rw [h1]; exact hd⟩
        · intro ⟨hmem, hscore⟩
          rcases (by simpa using hmem : s = "fandom" ∨ s = "dokkanInfo") with h1 | h1
          · rw [h1] at hscore
            exact absurd hscore hf
          · simp [h1]
      · simp only [if_neg hf, if_pos hd]
        exact List.pairwise_singleton _ _
    · rcases hyp with h | h
      · exact absurd h hf
      · exact absurd h hd
  · intro hf htie
    rw [updateSourcePrioritiesFor_eq]
    have hd : 0 ≤ scoreOf sample "dokkanInfo" := htie ▸ hf
    have hfd : scoreOf sample "fandom" ≥ scoreOf sample "dokkanInfo" := ge_of_eq htie
    simp [hf, hd, hfd]

/-- Closed instance of the C6 amended theorem at the tie input: the
    enumeration order wins the tie. -/
theorem updateSourcePriorities_rescore_witness :
    updateSourcePrioritiesFor tieSample ["dokkanInfo", "fandom"] = ["fandom", "dokkanInfo"] :=
  (updateSourcePriorities_rescore tieSample ["dokkanInfo", "fandom"]).2.2
    (by norm_num [scoreOf, tieSample, calculateFreshnessScore, truthyField, getField,
      isFalsy, jsOr, jsDateTime, jsParseFloat, fieldCount, List.lookup, List.filter,
      List.foldl, List.map])
    rfl

/-- C9: updateSourcePriorities never installs an empty priority list: the
    result is non-empty whenever the prior list is, and when every
    configured source's sample fetch throws (all scores -1) the prior
    priority list is kept unchanged. -/
theorem updateSourcePriorities_never_empty (sample : String → Except String (List JVal))
    (prior : List String) :
    (prior ≠ [] → updateSourcePrioritiesFor sample prior ≠ []) ∧
      ((∀ s ∈ wikiSourceKeys, ∃ e, sample s = .error e) →
        updateSourcePrioritiesFor sample prior = prior) := by
  constructor
  · intro hprior
    rw [updateSourcePrioritiesFor_eq]
    by_cases hf : 0 ≤ scoreOf sample "fandom" <;>
      by_cases hd : 0 ≤ scoreOf sample "dokkanInfo"
    · by_cases hfd : scoreOf sample "fandom" ≥ scoreOf sample "dokkanInfo" <;>
        simp [hf, hd, hfd]
    · simp [hf, hd]
    · simp [hf, hd]
    · simp [hf, hd, hprior]
  · intro hall
    obtain ⟨ef, hef⟩ := hall "fandom" (by simp [wikiSourceKeys])
    obtain ⟨ed, hed⟩ := hall "dokkanInfo" (by simp [wikiSourceKeys])
    have hf : scoreOf sample "fandom" = -1 := by simp [scoreOf, hef]
    have hd : scoreOf sample "dokkanInfo" = -1 := by simp [scoreOf, hed]
    rw [updateSourcePrioritiesFor_eq, hf, hd]
    norm_num

/-- Closed instance of the C9 theorem: with both sample fetches throwing,
    the prior list [dokkanInfo, fandom] is kept and stays non-empty. -/
theorem updateSourcePriorities_never_empty_witness :
    updateSourcePrioritiesFor allFailSample ["dokkanInfo", "fandom"] =
        ["dokkanInfo", "fandom"] ∧
      updateSourcePrioritiesFor allFailSample ["dokkanInfo", "fandom"] ≠ [] :=
  ⟨(updateSourcePriorities_never_empty allFailSample ["dokkanInfo", "fandom"]).2
      (fun s _ => ⟨"down", rfl⟩),
    (updateSourcePriorities_never_empty allFailSample ["dokkanInfo", "fandom"]).1
      (by decide)⟩

/- Parser learning: WikiUpdater.learnParserForNewDataType.  The claims
   concern the required-fields computation (lines collecting allFields,
   counting occurrences and filtering at the 75% threshold); the JS Set
   keeps first-seen insertion order and Object.entries(commonFields)
   iterates in that same insertion order. -/

/-- Object.keys(item): an object record's own keys, in insertion order;
    primitives have none. -/
def recordKeys : JVal → List String
  | .vobj fs => fs.map Prod.fst
  | _ => []

/-- The union of field names across the samples in first-seen order (the
    allFields set of learnParserForNewDataType). -/
def allFieldsOf (samples : List JVal) : List String :=
  samples.foldl
    (fun acc it =>
      (recordKeys it).foldl (fun acc2 f => if f ∈ acc2 then acc2 else acc2 ++ [f]) acc)
    []

/-- commonFields[f]: in how many samples the field is not undefined. -/
def countField (samples : List JVal) (f : String) : Nat :=
  (samples.filter (fun it => (getField it f).isSome)).length

/-- The required-fields computation of learnParserForNewDataType: the
    union fields present in at least 75% of the samples, in union order.
    The JS comparison count >= sampleData.length * 0.75 is exact in
    binary floating point (0.75 is dyadic), so the rational model is
    faithful. -/
def learnedRequiredFields (samples : List JVal) : List String :=
  (allFieldsOf samples).filter
    (fun f => (countField samples f : Rat) ≥ (samples.length : Rat) * 0.75)

/-- C8: for a non-empty sample list, a field is in the learned parser's
    required-fields set iff it belongs to the union of field names across
    the samples and is present (not undefined) in at least 75% of the
    sample records (4·count ≥ 3·size is the exact form of the
    threshold). -/
theorem learnParser_required_iff (samples : List JVal) (_hne : samples ≠ []) (f : String) :
    f ∈ learnedRequiredFields samples ↔
      f ∈ allFieldsOf samples ∧ 4 * countField samples f ≥ 3 * samples.length := by
  unfold learnedRequiredFields
  rw [List.mem_filter]
  refine and_congr_right (fun _ => ?_)
  rw [decide_eq_true_eq]
  constructor
  · intro h
    have h4 : (4 * countField samples f : Rat) ≥ 3 * samples.length := by
      have h075 : (0.75 : Rat) = 3 / 4 := by norm_num
      rw [h075] at h
      linarith
    exact_mod_cast h4
  · intro h
    have h4 : (4 * countField samples f : Rat) ≥ 3 * samples.length := by exact_mod_cast h
    have h075 : (0.75 : Rat) = 3 / 4 := by norm_num
    rw [h075]
    linarith

/-- Four sample records: field x in three of four (exactly the 75%
    threshold), fields y and z in one each. -/
def learnSamples : List JVal :=
  [.vobj [("x", .vnum 1), ("y", .vnum 1)],
   .vobj [("x", .vnum 2)],
   .vobj [("x", .vnum 3)],
   .vobj [("z", .vstr "w")]]

/-- Closed instance of the C8 theorem: x (3 of 4 samples) is required,
    y (1 of 4) is not. -/
theorem learnParser_required_iff_witness :
    "x" ∈ learnedRequiredFields learnSamples ∧
      "y" ∉ learnedRequiredFields learnSamples :=
  ⟨(learnParser_required_iff learnSamples (by simp [learnSamples]) "x").mpr
      ⟨by decide, by decide⟩,
    fun h =>
      absurd ((learnParser_required_iff learnSamples (by simp [learnSamples]) "y").mp h).2
        (by decide)⟩

/- Cache store: DataManager (src/unnamed/part_000).  The filesystem and
   JSON.parse are external capabilities, modelled as fallible oracles:
   `readFile` maps a path to its contents or a thrown error (missing
   file, I/O failure), `parseJson` maps contents to the parsed value or a
   thrown SyntaxError (corrupt content). -/

/-- The cache file path DataManager computes:
    path.join(basePath, 'data', 'cache', key + '.json'). -/
def cacheFilePath (basePath key : String) : String :=
  basePath ++ "/data/cache/" ++ key ++ ".json"

/-- The try-block body of DataManager.getCachedData: read the file, then
    JSON.parse its contents; either step may throw. -/
def getCachedDataBody (readFile : String → Except String String)
    (parseJson : String → Except String JVal) (basePath key : String) :
    Except String JVal :=
  match readFile (cacheFilePath basePath key) with
  | .error e => .error e
  | .ok s => parseJson s

/-- DataManager.getCachedData: the try body wrapped in the unconditional
    catch that returns null (modelled as none) on any failure. -/
def getCachedData (readFile : String → Except String String)
    (parseJson : String → Except String JVal) (basePath key : String) : Option JVal :=
  match getCachedDataBody readFile parseJson basePath key with
  | .ok v => some v
  | .error _ => none

/-- C10: getCachedData never propagates a failure for any key: whenever
    the read-and-parse body throws — missing key, I/O error, or corrupt
    JSON — the call returns the explicit not-found value null (none), and
    whenever the body succeeds the parsed value is returned. -/
theorem getCachedData_never_throws (readFile : String → Except String String)
    (parseJson : String → Except String JVal) (basePath key : String) :
    (∀ e, getCachedDataBody readFile parseJson basePath key = .error e →
      getCachedData readFile parseJson basePath key = none) ∧
      (∀ v, getCachedDataBody readFile parseJson basePath key = .ok v →
        getCachedData readFile parseJson basePath key = some v) := by
  constructor
  · intro e he
    simp [getCachedData, he]
  · intro v hv
    simp [getCachedData, hv]

/-- Closed instance of the C10 theorem: a missing file and a corrupt file
    both yield none; a successful read-and-parse yields the value. -/
theorem getCachedData_never_throws_witness :
    getCachedData (fun _ => .error "ENOENT") (fun _ => .ok .vnull) "/base" "cards" =
        none ∧
      getCachedData (fun _ => .ok "garbage") (fun _ => .error "Unexpected token")
          "/base" "cards" =
        none ∧
      getCachedData (fun _ => .ok "[]") (fun _ => .ok (.vlist [])) "/base" "cards" =
        some (.vlist []) :=
  ⟨(getCachedData_never_throws (fun _ => .error "ENOENT") (fun _ => .ok .vnull)
      "/base" "cards").1 "ENOENT" rfl,
    (getCachedData_never_throws (fun _ => .ok "garbage")
        (fun _ => .error "Unexpected token") "/base" "cards").1 "Unexpected token" rfl,
    (getCachedData_never_throws (fun _ => .ok "[]") (fun _ => .ok (.vlist []))
        "/base" "cards").2 (.vlist []) rfl⟩

end DokkanKB
